import Mathlib

/-!
# `native-lib.cpp`: the JNI entry point `nativeProcessFrame`

A shallow embedding of
`Java_com_example_flamappassignment_MainActivity_nativeProcessFrame`
(`app/src/main/cpp/native-lib.cpp`) and theorems about it.

Modelling conventions.

* A `jint` / C++ `int` is an `Int`; every arithmetic result the source stores in an
  `int` is reduced with `wrap32` (32-bit two's complement).
* A byte (`unsigned char`, or a `jbyte` seen through the `reinterpret_cast`) is a
  `Fin 256`.
* A `jbyteArray` reference is an `Option (List Byte)`; `none` is the null reference.
* Indexing outside a buffer, a `std::vector` constructed with a negative `int` size
  (`std::length_error`, which the fallback branch does not catch) and a JNI call that
  aborts are all the outcome `Ret.fault`: the call does not return normally.
* The JNI calls and the diagnostics are recorded, in program order, in a trace.
* Whether `<opencv2/opencv.hpp>` was found (`HAS_OPENCV`) is the argument
  `opencv : Option OpenCV`: `none` is `HAS_OPENCV 0`, `some cv` is `HAS_OPENCV 1` with the
  library `cv`.
-/

namespace NativeLib

/-! ## Machine integers and bytes -/

/-- One `unsigned char`. -/
abbrev Byte := Fin 256

/-- The value a C++ `int` holds after an arithmetic result `z` is stored in it. -/
def wrap32 (z : Int) : Int := (z + 2147483648) % 4294967296 - 2147483648

/-- Read `buf[i]` for an `int` index; `none` when the index is outside the buffer. -/
def readByte (buf : List Byte) (i : Int) : Option Byte :=
  if 0 ≤ i then buf[i.toNat]? else none

/-- Store `buf[i] = v` for an `int` index; `none` when the index is outside the buffer. -/
def writeByte (buf : List Byte) (i : Int) (v : Byte) : Option (List Byte) :=
  if 0 ≤ i ∧ i < buf.length then some (buf.set i.toNat v) else none

/-! ## The JNI environment -/

/-- Third argument of `ReleaseByteArrayElements`. -/
inductive ReleaseMode
  | copyBackAndFree
  | JNI_COMMIT
  | JNI_ABORT
  deriving DecidableEq, Repr

/-- The four `ALOGE` messages of the source. -/
inductive Diagnostic
  | invalidArgs
  | openCVException
  | unknownNativeException
  | openCVNotAvailable
  deriving DecidableEq, Repr

/-- Observable steps of one call, in program order. -/
inductive Event
  | ALOGE (msg : Diagnostic)
  | GetByteArrayElements
  | GetArrayLength
  | vectorCtor (size : Int)
  | NewByteArray (length : Int)
  | SetByteArrayRegion (start len : Int)
  | ReleaseByteArrayElements (mode : ReleaseMode)
  deriving DecidableEq, Repr

/-- What the caller gets: `nullptr`, a new byte array, or no normal return at all. -/
inductive Ret
  | nullptr
  | outArray (bytes : List Byte)
  | fault
  deriving DecidableEq, Repr

/-- Outcome of one call: the returned value, the trace, and the contents of the Java array
behind `nv21Array` after the call. -/
structure Call where
  ret : Ret
  trace : List Event
  nv21Array : Option (List Byte)
  deriving DecidableEq, Repr

/-- The constructor `std::vector<unsigned char> v(n)` called with an `int`: `n` zero bytes;
a negative `n` converts to a size above `max_size()` and the constructor throws. -/
def vectorCtor (n : Int) : Option (List Byte) :=
  if 0 ≤ n then some (List.replicate n.toNat 0) else none

/-- JNI `NewByteArray(length)`: a zero-filled Java array; a negative length aborts. -/
def NewByteArray (length : Int) : Option (List Byte) :=
  if 0 ≤ length then some (List.replicate length.toNat 0) else none

/-- JNI `SetByteArrayRegion(array, start, len, buf)`: copy `len` bytes of `buf` over
`array[start .. start+len)`. -/
def SetByteArrayRegion (array : List Byte) (start len : Int) (buf : List Byte) :
    Option (List Byte) :=
  if 0 ≤ start ∧ 0 ≤ len ∧ start + len ≤ array.length ∧ len ≤ buf.length then
    some (array.take start.toNat ++ buf.take len.toNat ++ array.drop (start + len).toNat)
  else none

/-- JNI `ReleaseByteArrayElements(array, elems, mode)`: the contents of the Java array
afterwards. Only `JNI_ABORT` discards the native copy without writing it back. -/
def ReleaseByteArrayElements (array elems : List Byte) : ReleaseMode → List Byte
  | .JNI_ABORT => array
  | .JNI_COMMIT => elems
  | .copyBackAndFree => elems

/-- Number of `GetByteArrayElements` calls in a trace. -/
def acquisitions (tr : List Event) : Nat :=
  tr.count Event.GetByteArrayElements

/-- Number of `ReleaseByteArrayElements(..., JNI_ABORT)` calls in a trace: the release the
source performs, which frees the native copy and writes nothing back. A release with any
other mode is not counted. -/
def releases (tr : List Event) : Nat :=
  tr.count (Event.ReleaseByteArrayElements ReleaseMode.JNI_ABORT)

/-! ## The fallback branch (`#else`, lines 113-139) -/

/-- Line 117: `int frameSize = width * height;`. -/
def frameSize (width height : Int) : Int := wrap32 (width * height)

/-- Line 118: `int outSize = frameSize * 4;`. -/
def outSize (width height : Int) : Int := wrap32 (frameSize width height * 4)

/-- Line 125: `int yIndex = y * width + x;`. -/
def yIndex (width y x : Int) : Int := wrap32 (wrap32 (y * width) + x)

/-- Line 128: `int outIdx = (yIndex) * 4;`. -/
def outIdx (yIndex : Int) : Int := wrap32 (yIndex * 4)

/-- Lines 125-132: the body of the inner loop at row `y`, column `x`. -/
def pixelBody (nv21_u : List Byte) (width y x : Int) (outBuf : List Byte) :
    Option (List Byte) := do
  let Y ← readByte nv21_u (yIndex width y x)
  let outBuf ← writeByte outBuf (wrap32 (outIdx (yIndex width y x) + 0)) Y
  let outBuf ← writeByte outBuf (wrap32 (outIdx (yIndex width y x) + 1)) Y
  let outBuf ← writeByte outBuf (wrap32 (outIdx (yIndex width y x) + 2)) Y
  writeByte outBuf (wrap32 (outIdx (yIndex width y x) + 3)) 255

/-- Lines 124-133: `for (int x = 0; x < width; ++x)`. -/
def rowLoop (nv21_u : List Byte) (width y : Int) (outBuf : List Byte) :
    Option (List Byte) :=
  (List.range width.toNat).foldlM
    (fun (buf : List Byte) (x : Nat) => pixelBody nv21_u width y (x : Int) buf) outBuf

/-- Lines 123-134: `for (int y = 0; y < height; ++y)`. -/
def frameLoop (nv21_u : List Byte) (width height : Int) (outBuf : List Byte) :
    Option (List Byte) :=
  (List.range height.toNat).foldlM
    (fun (buf : List Byte) (y : Nat) => rowLoop nv21_u width (y : Int) buf) outBuf

/-- Lines 115-139: the branch compiled when OpenCV is absent. `array` is the Java array,
`nv21` its acquired elements; the trace holds the events of the branch. -/
def fallbackPath (array nv21 : List Byte) (width height : Int) : Call :=
  match vectorCtor (outSize width height) with
  | none =>
    { ret := .fault,
      trace := [.ALOGE .openCVNotAvailable, .vectorCtor (outSize width height)],
      nv21Array := some array }
  | some outBuf =>
    match frameLoop nv21 width height outBuf with
    | none =>
      { ret := .fault,
        trace := [.ALOGE .openCVNotAvailable, .vectorCtor (outSize width height)],
        nv21Array := some array }
    | some outBuf =>
      match NewByteArray (outSize width height) with
      | none =>
        { ret := .fault,
          trace := [.ALOGE .openCVNotAvailable, .vectorCtor (outSize width height),
                    .NewByteArray (outSize width height)],
          nv21Array := some array }
      | some outArray =>
        match SetByteArrayRegion outArray 0 (outSize width height) outBuf with
        | none =>
          { ret := .fault,
            trace := [.ALOGE .openCVNotAvailable, .vectorCtor (outSize width height),
                      .NewByteArray (outSize width height),
                      .SetByteArrayRegion 0 (outSize width height)],
            nv21Array := some array }
        | some outArray =>
          { ret := .outArray outArray,
            trace := [.ALOGE .openCVNotAvailable, .vectorCtor (outSize width height),
                      .NewByteArray (outSize width height),
                      .SetByteArrayRegion 0 (outSize width height),
                      .ReleaseByteArrayElements .JNI_ABORT],
            nv21Array := some (ReleaseByteArrayElements array nv21 .JNI_ABORT) }

/-! ## The OpenCV branch (`#if HAS_OPENCV`, lines 68-111) -/

/-- What a `throw` inside the `try` block carries: a `cv::Exception` or anything else. -/
inductive Thrown
  | cvException
  | other
  deriving DecidableEq, Repr

/-- A `cv::Mat` of 8-bit elements: its header and its pixel rows in row-major order. -/
structure Mat where
  rows : Int
  cols : Int
  elemSize : Nat
  data : List Byte
  isContinuous : Bool
  deriving DecidableEq, Repr

/-- Member `Mat::total()`. -/
def Mat.total (m : Mat) : Int := m.rows * m.cols

/-- Member `Mat::clone()`: the same pixels in one contiguous block. -/
def Mat.clone (m : Mat) : Mat := { m with isContinuous := true }

/-- The three conversion codes the source passes to `cvtColor`. -/
inductive ColorConversionCode
  | COLOR_YUV2RGBA_NV21
  | COLOR_RGBA2GRAY
  | COLOR_GRAY2RGBA
  deriving DecidableEq, Repr

/-- The two OpenCV functions the source calls. They are not part of the repository and
are taken as parameters; each either returns a `Mat` or throws. -/
structure OpenCV where
  cvtColor : Mat → ColorConversionCode → Except Thrown Mat
  Canny : Mat → Int → Int → Except Thrown Mat

/-- Line 71: `Mat yuv(height + height/2, width, CV_8UC1, nv21)`, a header over the
acquired elements. -/
def yuv (nv21 : List Byte) (width height : Int) : Mat :=
  { rows := wrap32 (height + Int.tdiv height 2), cols := width, elemSize := 1,
    data := nv21, isContinuous := true }

/-- Lines 71-95: the image pipeline inside the `try` block, up to the continuity fix. -/
def edgePipeline (cv : OpenCV) (nv21 : List Byte) (width height : Int) :
    Except Thrown Mat := do
  let rgba ← cv.cvtColor (yuv nv21 width height) .COLOR_YUV2RGBA_NV21
  let gray ← cv.cvtColor rgba .COLOR_RGBA2GRAY
  let edges ← cv.Canny gray 50 150
  let edgesRGBA ← cv.cvtColor edges .COLOR_GRAY2RGBA
  pure (if !edgesRGBA.isContinuous then edgesRGBA.clone else edgesRGBA)

/-- Line 97: `int outSize = static_cast<int>(edgesRGBA.total() * edgesRGBA.elemSize());`. -/
def Mat.outSize (edgesRGBA : Mat) : Int := wrap32 (edgesRGBA.total * edgesRGBA.elemSize)

/-- Lines 68-111: the branch compiled when OpenCV is present. -/
def fullPath (cv : OpenCV) (array nv21 : List Byte) (width height : Int) : Call :=
  match edgePipeline cv nv21 width height with
  | .error .cvException =>
    { ret := .nullptr,
      trace := [.ALOGE .openCVException, .ReleaseByteArrayElements .JNI_ABORT],
      nv21Array := some (ReleaseByteArrayElements array nv21 .JNI_ABORT) }
  | .error .other =>
    { ret := .nullptr,
      trace := [.ALOGE .unknownNativeException, .ReleaseByteArrayElements .JNI_ABORT],
      nv21Array := some (ReleaseByteArrayElements array nv21 .JNI_ABORT) }
  | .ok edgesRGBA =>
    match NewByteArray edgesRGBA.outSize with
    | none =>
      { ret := .fault, trace := [.NewByteArray edgesRGBA.outSize], nv21Array := some array }
    | some outArray =>
      match SetByteArrayRegion outArray 0 edgesRGBA.outSize edgesRGBA.data with
      | none =>
        { ret := .fault,
          trace := [.NewByteArray edgesRGBA.outSize,
                    .SetByteArrayRegion 0 edgesRGBA.outSize],
          nv21Array := some array }
      | some outArray =>
        { ret := .outArray outArray,
          trace := [.NewByteArray edgesRGBA.outSize,
                    .SetByteArrayRegion 0 edgesRGBA.outSize,
                    .ReleaseByteArrayElements .JNI_ABORT],
          nv21Array := some (ReleaseByteArrayElements array nv21 .JNI_ABORT) }

/-! ## The entry point (lines 50-141) -/

/-- The function `Java_com_example_flamappassignment_MainActivity_nativeProcessFrame`.
Past the guard of line 59 the input elements are acquired (line 64), the length is read
(line 65, never used afterwards) and the branch selected at build time runs. -/
def nativeProcessFrame (opencv : Option OpenCV) (nv21Array : Option (List Byte))
    (width height : Int) : Call :=
  match nv21Array with
  | none => { ret := .nullptr, trace := [.ALOGE .invalidArgs], nv21Array := none }
  | some array =>
    if width = 0 ∨ height = 0 then
      { ret := .nullptr, trace := [.ALOGE .invalidArgs], nv21Array := some array }
    else
      let nv21 := array
      let branch :=
        match opencv with
        | some cv => fullPath cv array nv21 width height
        | none => fallbackPath array nv21 width height
      { branch with trace := [.GetByteArrayElements, .GetArrayLength] ++ branch.trace }

/-! ## Vocabulary of the statements -/

/-- Channel replication: every byte `Y` becomes the four bytes `Y, Y, Y, 255`. -/
def replicateChannels : List Byte → List Byte
  | [] => []
  | Y :: rest => Y :: Y :: Y :: 255 :: replicateChannels rest

/-- Loop invariant of the fallback branch: `buf` has `4 * N` bytes and its first `k` pixels
are the channel replications of the first `k` bytes of `nv21`. -/
def Filled (nv21 : List Byte) (N k : Nat) (buf : List Byte) : Prop :=
  buf.length = 4 * N ∧
    ∀ i, i < k → buf[4 * i]? = nv21[i]? ∧ buf[4 * i + 1]? = nv21[i]? ∧
      buf[4 * i + 2]? = nv21[i]? ∧ buf[4 * i + 3]? = some 255

/-- Modelled from the spec: OpenCV's `cvtColor` and `Canny` are called by the source but
are not part of the repository. This is what sections 3 and 4.3 of the spec say a
successful call delivers. The planar frame has `height` luma rows followed by `height/2`
chroma rows, and its conversion has the `height` luma rows and the same columns; the
grey view and the edge mask keep these dimensions ("no resizing occurs"); the edge mask
has one byte per pixel, each 0 or 255; the expansion of the mask writes R=G=B=mask value,
A=255 at every pixel, four bytes per pixel. -/
structure OpenCV.MeetsSpec (cv : OpenCV) : Prop where
  nv21_dims : ∀ planar rgba, cv.cvtColor planar .COLOR_YUV2RGBA_NV21 = .ok rgba →
    0 ≤ rgba.rows ∧ rgba.rows + Int.tdiv rgba.rows 2 = planar.rows ∧
      rgba.cols = planar.cols
  gray_dims : ∀ rgba gray, cv.cvtColor rgba .COLOR_RGBA2GRAY = .ok gray →
    gray.rows = rgba.rows ∧ gray.cols = rgba.cols
  canny_mask : ∀ gray edges threshold1 threshold2,
    cv.Canny gray threshold1 threshold2 = .ok edges →
      edges.rows = gray.rows ∧ edges.cols = gray.cols ∧
      (edges.data.length : Int) = edges.rows * edges.cols ∧
      ∀ b ∈ edges.data, b = 0 ∨ b = 255
  gray2rgba : ∀ edges edgesRGBA, cv.cvtColor edges .COLOR_GRAY2RGBA = .ok edgesRGBA →
    edgesRGBA.rows = edges.rows ∧ edgesRGBA.cols = edges.cols ∧ edgesRGBA.elemSize = 4 ∧
      edgesRGBA.data = replicateChannels edges.data

/-- Modelled from the spec: the simplest library that meets `OpenCV.MeetsSpec`, used to
instantiate statements about the OpenCV branch. Its NV21 conversion keeps the luma rows
and blanks the colour, its grey view is blank, its `Canny` finds no edge, and its grey to
RGBA expansion is the channel replication. A call on an image whose dimensions do not fit
throws `cv::Exception`. -/
def blankCV : OpenCV where
  cvtColor m code :=
    match code with
    | .COLOR_YUV2RGBA_NV21 =>
      if 0 ≤ m.rows ∧ 0 ≤ m.cols ∧
          (2 * m.rows + 1) / 3 + Int.tdiv ((2 * m.rows + 1) / 3) 2 = m.rows then
        .ok { rows := (2 * m.rows + 1) / 3, cols := m.cols, elemSize := 4,
              data := List.replicate (4 * ((2 * m.rows + 1) / 3 * m.cols).toNat) 0,
              isContinuous := true }
      else .error .cvException
    | .COLOR_RGBA2GRAY =>
      if 0 ≤ m.rows ∧ 0 ≤ m.cols then
        .ok { rows := m.rows, cols := m.cols, elemSize := 1,
              data := List.replicate (m.rows * m.cols).toNat 0, isContinuous := true }
      else .error .cvException
    | .COLOR_GRAY2RGBA =>
      .ok { rows := m.rows, cols := m.cols, elemSize := 4,
            data := replicateChannels m.data, isContinuous := true }
  Canny m _ _ :=
    if 0 ≤ m.rows ∧ 0 ≤ m.cols then
      .ok { rows := m.rows, cols := m.cols, elemSize := 1,
            data := List.replicate (m.rows * m.cols).toNat 0, isContinuous := true }
    else .error .cvException

/-! ## Lemmas -/

/-- An `int` result inside the 32-bit range is stored unchanged. -/
theorem wrap32_eq_self {z : Int} (h1 : -2147483648 ≤ z) (h2 : z ≤ 2147483647) : wrap32 z = z := by
  unfold wrap32; omega

/-- Line 125 without overflow: `yIndex` is `y*width + x`. -/
theorem yIndex_eq (W y x N : Nat) (hk : y * W + x < N) (h4 : 4 * N ≤ 2147483647) :
    yIndex (W : Int) (y : Int) (x : Int) = ((y * W + x : Nat) : Int) := by
  unfold yIndex
  have h1 : ((y : Int) * (W : Int)) = ((y * W : Nat) : Int) := by push_cast; rfl
  have h2 : wrap32 ((y * W : Nat) : Int) = ((y * W : Nat) : Int) :=
    wrap32_eq_self (by omega) (by omega)
  rw [h1, h2, wrap32_eq_self (by omega) (by omega)]
  push_cast; rfl

/-- Line 128 without overflow: `outIdx` is `4*yIndex`. -/
theorem outIdx_eq (k N : Nat) (hk : k < N) (h4 : 4 * N ≤ 2147483647) :
    outIdx (k : Int) = ((4 * k : Nat) : Int) := by
  unfold outIdx
  rw [wrap32_eq_self (by omega) (by omega)]
  push_cast; ring

/-- A store at an index inside the buffer succeeds. -/
theorem writeByte_eq (buf : List Byte) (j : Nat) (v : Byte) (hj : j < buf.length) :
    writeByte buf (j : Int) v = some (buf.set j v) := by
  unfold writeByte
  rw [if_pos ⟨by omega, by omega⟩]
  simp

/-- A load at a natural-number index is the list lookup. -/
theorem readByte_eq (buf : List Byte) (j : Nat) :
    readByte buf (j : Int) = buf[j]? := by
  unfold readByte
  rw [if_pos (by omega)]
  simp

/-- The loop body at an in-range pixel: one load and four stores, all successful. -/
theorem pixelBody_eq (nv21 : List Byte) (W y x N : Nat) (buf : List Byte)
    (hk : y * W + x < N) (h4 : 4 * N ≤ 2147483647) (hlen : N ≤ nv21.length)
    (hbuf : buf.length = 4 * N) :
    ∃ Y, nv21[y * W + x]? = some Y ∧
      pixelBody nv21 (W : Int) (y : Int) (x : Int) buf =
        some ((((buf.set (4 * (y * W + x)) Y).set (4 * (y * W + x) + 1) Y).set
          (4 * (y * W + x) + 2) Y).set (4 * (y * W + x) + 3) 255) := by
  have hlt : y * W + x < nv21.length := by omega
  refine ⟨nv21[y * W + x], List.getElem?_eq_getElem hlt, ?_⟩
  unfold pixelBody
  rw [yIndex_eq W y x N hk h4, outIdx_eq _ N hk h4, readByte_eq, List.getElem?_eq_getElem hlt]
  generalize y * W + x = k at hk hlt ⊢
  have e0 : wrap32 (((4 * k : Nat) : Int) + 0) = ((4 * k : Nat) : Int) := by
    rw [wrap32_eq_self (by omega) (by omega)]; omega
  have e1 : wrap32 (((4 * k : Nat) : Int) + 1) = ((4 * k + 1 : Nat) : Int) := by
    rw [wrap32_eq_self (by omega) (by omega)]; omega
  have e2 : wrap32 (((4 * k : Nat) : Int) + 2) = ((4 * k + 2 : Nat) : Int) := by
    rw [wrap32_eq_self (by omega) (by omega)]; omega
  have e3 : wrap32 (((4 * k : Nat) : Int) + 3) = ((4 * k + 3 : Nat) : Int) := by
    rw [wrap32_eq_self (by omega) (by omega)]; omega
  rw [e0, e1, e2, e3]
  simp only [Option.bind_eq_bind, Option.some_bind]
  rw [writeByte_eq buf (4 * k) _ (by omega)]
  simp only [Option.some_bind]
  rw [writeByte_eq _ (4 * k + 1) _ (by rw [List.length_set]; omega)]
  simp only [Option.some_bind]
  rw [writeByte_eq _ (4 * k + 2) _ (by rw [List.length_set, List.length_set]; omega)]
  simp only [Option.some_bind]
  rw [writeByte_eq _ (4 * k + 3) _
    (by rw [List.length_set, List.length_set, List.length_set]; omega)]

/-- A loop over `0 .. n-1` whose body keeps an indexed invariant runs to the end and
establishes the invariant at `n`. -/
theorem foldlM_range_invariant {σ : Type} (P : Nat → σ → Prop) (f : σ → Nat → Option σ)
    (n : Nat) (step : ∀ i, i < n → ∀ s, P i s → ∃ s', f s i = some s' ∧ P (i + 1) s')
    (s0 : σ) (h0 : P 0 s0) :
    ∃ s, (List.range n).foldlM f s0 = some s ∧ P n s := by
  induction n with
  | zero => exact ⟨s0, rfl, h0⟩
  | succ n ih =>
    obtain ⟨s, hs, hP⟩ := ih (fun i hi => step i (Nat.lt_succ_of_lt hi))
    obtain ⟨s', hs', hP'⟩ := step n (Nat.lt_succ_self n) s hP
    refine ⟨s', ?_, hP'⟩
    rw [List.range_succ, List.foldlM_append, hs]
    simp [hs']

/-- The loop body extends the invariant `Filled` by one pixel. -/
theorem pixelBody_filled (nv21 : List Byte) (W y x N : Nat) (buf : List Byte)
    (hk : y * W + x < N) (h4 : 4 * N ≤ 2147483647) (hlen : N ≤ nv21.length)
    (hF : Filled nv21 N (y * W + x) buf) :
    ∃ buf', pixelBody nv21 (W : Int) (y : Int) (x : Int) buf = some buf' ∧
      Filled nv21 N (y * W + x + 1) buf' := by
  obtain ⟨Y, hY, hb⟩ := pixelBody_eq nv21 W y x N buf hk h4 hlen hF.1
  refine ⟨_, hb, ?_, ?_⟩
  · simp [hF.1]
  · intro i hi
    have hlen4 := hF.1
    generalize y * W + x = k at hk hY hF hi ⊢
    by_cases hik : i = k
    · subst hik
      simp only [List.getElem?_set, List.length_set]
      rw [hY]
      refine ⟨?_, ?_, ?_, ?_⟩
      · rw [if_neg (by omega), if_neg (by omega), if_neg (by omega), if_pos trivial,
          if_pos (by omega)]
      · rw [if_neg (by omega), if_neg (by omega), if_pos trivial, if_pos (by omega)]
      · rw [if_neg (by omega), if_pos trivial, if_pos (by omega)]
      · rw [if_pos trivial, if_pos (by omega)]
    · have hi' : i < k := by omega
      obtain ⟨a, b, c, d⟩ := hF.2 i hi'
      simp only [List.getElem?_set, List.length_set]
      refine ⟨?_, ?_, ?_, ?_⟩
      · rw [if_neg (by omega), if_neg (by omega), if_neg (by omega), if_neg (by omega), a]
      · rw [if_neg (by omega), if_neg (by omega), if_neg (by omega), if_neg (by omega), b]
      · rw [if_neg (by omega), if_neg (by omega), if_neg (by omega), if_neg (by omega), c]
      · rw [if_neg (by omega), if_neg (by omega), if_neg (by omega), if_neg (by omega), d]

/-- The inner loop extends the invariant `Filled` by one row. -/
theorem rowLoop_filled (nv21 : List Byte) (W H y : Nat) (buf : List Byte)
    (hy : y < H) (h4 : 4 * (W * H) ≤ 2147483647) (hlen : W * H ≤ nv21.length)
    (hF : Filled nv21 (W * H) (y * W) buf) :
    ∃ buf', rowLoop nv21 (W : Int) (y : Int) buf = some buf' ∧
      Filled nv21 (W * H) ((y + 1) * W) buf' := by
  have hrow : (y + 1) * W ≤ W * H := by
    calc (y + 1) * W ≤ H * W := Nat.mul_le_mul_right W hy
      _ = W * H := Nat.mul_comm H W
  have hsucc : (y + 1) * W = y * W + W := by ring
  unfold rowLoop
  rw [Int.toNat_ofNat, hsucc]
  exact foldlM_range_invariant (fun x b => Filled nv21 (W * H) (y * W + x) b)
    (fun b x => pixelBody nv21 (W : Int) (y : Int) (x : Int) b) W
    (fun x hx b hb => pixelBody_filled nv21 W y x (W * H) b (by omega) h4 hlen hb)
    buf hF

/-- The two loops fill the whole output buffer. -/
theorem frameLoop_filled (nv21 : List Byte) (W H : Nat) (buf : List Byte)
    (h4 : 4 * (W * H) ≤ 2147483647) (hlen : W * H ≤ nv21.length)
    (hbuf : buf.length = 4 * (W * H)) :
    ∃ buf', frameLoop nv21 (W : Int) (H : Int) buf = some buf' ∧
      Filled nv21 (W * H) (W * H) buf' := by
  unfold frameLoop
  rw [Int.toNat_ofNat, Nat.mul_comm W H]
  have := foldlM_range_invariant (fun y b => Filled nv21 (W * H) (y * W) b)
    (fun b y => rowLoop nv21 (W : Int) (y : Int) b) H
    (fun y hy b hb => rowLoop_filled nv21 W H y b hy h4 hlen hb)
    buf ⟨hbuf, fun i hi => absurd hi (by omega)⟩
  rw [Nat.mul_comm W H] at this
  exact this

/-- Channel replication makes four bytes of every byte. -/
theorem length_replicateChannels (l : List Byte) :
    (replicateChannels l).length = 4 * l.length := by
  induction l with
  | nil => rfl
  | cons Y rest ih => simp only [replicateChannels, List.length_cons, ih]; omega

/-- The four bytes of pixel `i` of a channel replication. -/
theorem getElem?_replicateChannels (l : List Byte) (i : Nat) :
    (replicateChannels l)[4 * i]? = l[i]? ∧ (replicateChannels l)[4 * i + 1]? = l[i]? ∧
      (replicateChannels l)[4 * i + 2]? = l[i]? ∧
      (replicateChannels l)[4 * i + 3]? = (l[i]?).map (fun _ => 255) := by
  induction l generalizing i with
  | nil => simp [replicateChannels]
  | cons Y rest ih =>
    cases i with
    | zero => simp [replicateChannels]
    | succ i =>
      have shift : ∀ m, (replicateChannels (Y :: rest))[m + 4]? =
          (replicateChannels rest)[m]? := by
        intro m
        show (Y :: Y :: Y :: 255 :: replicateChannels rest)[m + 1 + 1 + 1 + 1]? = _
        simp only [List.getElem?_cons_succ]
      obtain ⟨a, b, c, d⟩ := ih i
      rw [List.getElem?_cons_succ]
      refine ⟨?_, ?_, ?_, ?_⟩
      · rw [show 4 * (i + 1) = 4 * i + 4 by ring, shift]; exact a
      · rw [show 4 * (i + 1) + 1 = 4 * i + 1 + 4 by ring, shift]; exact b
      · rw [show 4 * (i + 1) + 2 = 4 * i + 2 + 4 by ring, shift]; exact c
      · rw [show 4 * (i + 1) + 3 = 4 * i + 3 + 4 by ring, shift]; exact d

/-- A completely filled buffer is the channel replication of the luma plane. -/
theorem eq_replicateChannels_of_filled (nv21 out : List Byte) (N : Nat)
    (hlen : N ≤ nv21.length) (hF : Filled nv21 N N out) :
    out = replicateChannels (nv21.take N) := by
  apply List.ext_getElem?
  intro n
  obtain ⟨hl, hpix⟩ := hF
  have hn : n = 4 * (n / 4) + n % 4 := by omega
  have hmod : n % 4 < 4 := Nat.mod_lt n (by omega)
  obtain ⟨a, b, c, d⟩ := getElem?_replicateChannels (nv21.take N) (n / 4)
  by_cases hi : n / 4 < N
  · obtain ⟨a', b', c', d'⟩ := hpix (n / 4) hi
    have htake : (nv21.take N)[n / 4]? = nv21[n / 4]? := List.getElem?_take_of_lt hi
    have hlt : n / 4 < nv21.length := by omega
    have hsome : nv21[n / 4]? = some nv21[n / 4] := List.getElem?_eq_getElem hlt
    rw [htake] at a b c d
    rw [hsome, Option.map_some'] at d
    have h4 : n % 4 = 0 ∨ n % 4 = 1 ∨ n % 4 = 2 ∨ n % 4 = 3 := by omega
    rcases h4 with h | h | h | h
    · rw [hn, h, Nat.add_zero, a', a]
    · rw [hn, h, b', b]
    · rw [hn, h, c', c]
    · rw [hn, h, d', d]
  · rw [List.getElem?_eq_none (by omega),
      List.getElem?_eq_none (by rw [length_replicateChannels, List.length_take]; omega)]

/-- Lines 117-118 without overflow: `outSize` is `4*width*height`. -/
theorem outSize_eq (W H : Nat) (h4 : 4 * (W * H) ≤ 2147483647) :
    outSize (W : Int) (H : Int) = ((4 * (W * H) : Nat) : Int) := by
  unfold outSize frameSize
  have h1 : ((W : Int) * (H : Int)) = ((W * H : Nat) : Int) := by push_cast; rfl
  have h2 : wrap32 ((W * H : Nat) : Int) = ((W * H : Nat) : Int) :=
    wrap32_eq_self (by omega) (by omega)
  rw [h1, h2, wrap32_eq_self (by omega) (by omega)]
  omega

/-- The vector constructor on a non-negative size. -/
theorem vectorCtor_natCast (n : Nat) :
    vectorCtor (n : Int) = some (List.replicate n 0) := by
  unfold vectorCtor
  rw [if_pos (by omega), Int.toNat_ofNat]

/-- The call `NewByteArray` on a non-negative length. -/
theorem NewByteArray_natCast (n : Nat) :
    NewByteArray (n : Int) = some (List.replicate n 0) := by
  unfold NewByteArray
  rw [if_pos (by omega), Int.toNat_ofNat]

/-- Copying a whole buffer over a whole array of the same length yields the buffer. -/
theorem SetByteArrayRegion_whole (n : Nat) (buf : List Byte) (hbuf : buf.length = n) :
    SetByteArrayRegion (List.replicate n 0) 0 (n : Int) buf = some buf := by
  unfold SetByteArrayRegion
  rw [if_pos ⟨by omega, by omega, by rw [List.length_replicate]; omega, by omega⟩]
  have h0 : (0 : Int).toNat = 0 := rfl
  have h1 : ((0 : Int) + (n : Int)).toNat = n := by omega
  rw [h0, h1, Int.toNat_ofNat, List.take_zero, List.nil_append,
    List.take_of_length_le (by omega),
    List.drop_of_length_le (by rw [List.length_replicate]), List.append_nil]

/-- The fallback branch on a no-overflow input: the complete outcome. -/
theorem fallbackPath_eq (array nv21 : List Byte) (W H : Nat)
    (h4 : 4 * (W * H) ≤ 2147483647) (hlen : W * H ≤ nv21.length) :
    fallbackPath array nv21 (W : Int) (H : Int) =
      { ret := .outArray (replicateChannels (nv21.take (W * H))),
        trace := [.ALOGE .openCVNotAvailable, .vectorCtor ((4 * (W * H) : Nat) : Int),
                  .NewByteArray ((4 * (W * H) : Nat) : Int),
                  .SetByteArrayRegion 0 ((4 * (W * H) : Nat) : Int),
                  .ReleaseByteArrayElements .JNI_ABORT],
        nv21Array := some array } := by
  obtain ⟨buf, hloop, hF⟩ := frameLoop_filled nv21 W H (List.replicate (4 * (W * H)) 0) h4 hlen
    (List.length_replicate _ _)
  have hout := eq_replicateChannels_of_filled nv21 buf (W * H) hlen hF
  rw [fallbackPath, outSize_eq W H h4, vectorCtor_natCast]
  simp only [hloop, NewByteArray_natCast, SetByteArrayRegion_whole _ buf hF.1]
  rw [hout]
  rfl

/-- A frame of at least `width*height*3/2` bytes holds the `width*height` luma bytes. -/
theorem luma_le_of_frame_le (width height : Int) (len : Nat) (hw : 0 < width)
    (hh : 0 < height) (hlen : width * height * 3 / 2 ≤ (len : Int)) :
    width * height ≤ (len : Int) := by
  have hpos : 0 < width * height := Int.mul_pos hw hh
  omega

/-- Positive `int` dimensions with a representable `width*height*4` and a frame holding
the luma plane, read as natural numbers. -/
theorem dims_cast (nv21 : List Byte) (width height : Int) (hw : 0 < width)
    (hh : 0 < height) (hsz : width * height * 4 ≤ 2147483647)
    (hlen : width * height ≤ (nv21.length : Int)) :
    ∃ W H : Nat, width = (W : Int) ∧ height = (H : Int) ∧ 0 < W ∧ 0 < H ∧
      4 * (W * H) ≤ 2147483647 ∧ W * H ≤ nv21.length := by
  obtain ⟨W, rfl⟩ := Int.eq_ofNat_of_zero_le hw.le
  obtain ⟨H, rfl⟩ := Int.eq_ofNat_of_zero_le hh.le
  refine ⟨W, H, rfl, rfl, by omega, by omega, ?_, ?_⟩
  · have : ((4 * (W * H) : Nat) : Int) ≤ 2147483647 := by push_cast; linarith
    exact_mod_cast this
  · exact_mod_cast hlen

/-- The entry point on the fallback build, past the guard, on a no-overflow input. -/
theorem nativeProcessFrame_fallback_eq (nv21 : List Byte) (W H : Nat) (hW : 0 < W)
    (hH : 0 < H) (h4 : 4 * (W * H) ≤ 2147483647) (hlen : W * H ≤ nv21.length) :
    nativeProcessFrame none (some nv21) (W : Int) (H : Int) =
      { ret := .outArray (replicateChannels (nv21.take (W * H))),
        trace := [.GetByteArrayElements, .GetArrayLength,
                  .ALOGE .openCVNotAvailable, .vectorCtor ((4 * (W * H) : Nat) : Int),
                  .NewByteArray ((4 * (W * H) : Nat) : Int),
                  .SetByteArrayRegion 0 ((4 * (W * H) : Nat) : Int),
                  .ReleaseByteArrayElements .JNI_ABORT],
        nv21Array := some nv21 } := by
  rw [nativeProcessFrame]
  rw [if_neg (by omega)]
  simp only [fallbackPath_eq nv21 nv21 W H h4 hlen]
  rfl

/-- The OpenCV build past the guard of line 59: acquisition, length, then the branch. -/
theorem nativeProcessFrame_some_past_guard (cv : OpenCV) (array : List Byte)
    (width height : Int) (hw : width ≠ 0) (hh : height ≠ 0) :
    nativeProcessFrame (some cv) (some array) width height =
      { ret := (fullPath cv array array width height).ret,
        trace := [Event.GetByteArrayElements, Event.GetArrayLength] ++
          (fullPath cv array array width height).trace,
        nv21Array := (fullPath cv array array width height).nv21Array } := by
  rw [nativeProcessFrame, if_neg (by omega)]

/-- An OpenCV branch that returns an array went through the whole pipeline, and the array
is what `SetByteArrayRegion` copied out of `edgesRGBA`. -/
theorem fullPath_outArray (cv : OpenCV) (array nv21 out : List Byte) (width height : Int)
    (hret : (fullPath cv array nv21 width height).ret = Ret.outArray out) :
    ∃ edgesRGBA outArray, edgePipeline cv nv21 width height = .ok edgesRGBA ∧
      NewByteArray edgesRGBA.outSize = some outArray ∧
      SetByteArrayRegion outArray 0 edgesRGBA.outSize edgesRGBA.data = some out := by
  revert hret
  rw [fullPath]
  cases edgePipeline cv nv21 width height with
  | error t =>
    cases t with
    | cvException => intro h; cases h
    | other => intro h; cases h
  | ok edgesRGBA =>
    simp only []
    cases hnew : NewByteArray edgesRGBA.outSize with
    | none => intro h; cases h
    | some arr =>
      simp only []
      cases hset : SetByteArrayRegion arr 0 edgesRGBA.outSize edgesRGBA.data with
      | none => intro h; cases h
      | some out2 =>
        intro h
        cases h
        exact ⟨edgesRGBA, arr, rfl, hnew, hset⟩

/-- A pipeline that succeeds made its four library calls in order, all successful. -/
theorem edgePipeline_ok (cv : OpenCV) (nv21 : List Byte) (width height : Int)
    (edgesRGBA : Mat) (hok : edgePipeline cv nv21 width height = .ok edgesRGBA) :
    ∃ rgba gray edges converted,
      cv.cvtColor (yuv nv21 width height) .COLOR_YUV2RGBA_NV21 = .ok rgba ∧
      cv.cvtColor rgba .COLOR_RGBA2GRAY = .ok gray ∧
      cv.Canny gray 50 150 = .ok edges ∧
      cv.cvtColor edges .COLOR_GRAY2RGBA = .ok converted ∧
      edgesRGBA = (if !converted.isContinuous then converted.clone else converted) := by
  revert hok
  rw [edgePipeline]
  cases h1 : cv.cvtColor (yuv nv21 width height) .COLOR_YUV2RGBA_NV21 with
  | error t => intro h; cases h
  | ok rgba =>
    cases h2 : cv.cvtColor rgba .COLOR_RGBA2GRAY with
    | error t => intro h; simp only [bind, Except.bind, h2] at h; cases h
    | ok gray =>
      cases h3 : cv.Canny gray 50 150 with
      | error t => intro h; simp only [bind, Except.bind, h2, h3] at h; cases h
      | ok edges =>
        cases h4 : cv.cvtColor edges .COLOR_GRAY2RGBA with
        | error t => intro h; simp only [bind, Except.bind, h2, h3, h4] at h; cases h
        | ok converted =>
          intro h
          simp only [bind, Except.bind, h2, h3, h4, pure, Except.pure] at h
          cases h
          exact ⟨rgba, gray, edges, converted, rfl, h2, h3, h4, rfl⟩

/-- A successful `NewByteArray` had a non-negative length and returned zeros. -/
theorem NewByteArray_length (n : Int) (arr : List Byte) (h : NewByteArray n = some arr) :
    0 ≤ n ∧ arr = List.replicate n.toNat 0 := by
  unfold NewByteArray at h
  by_cases hn : 0 ≤ n
  · rw [if_pos hn] at h
    cases h
    exact ⟨hn, rfl⟩
  · rw [if_neg hn] at h
    cases h

/-- The call `SetByteArrayRegion` keeps the length of the array. -/
theorem SetByteArrayRegion_length (arr buf out : List Byte) (start len : Int)
    (h : SetByteArrayRegion arr start len buf = some out) : out.length = arr.length := by
  unfold SetByteArrayRegion at h
  by_cases hc : 0 ≤ start ∧ 0 ≤ len ∧ start + len ≤ arr.length ∧ len ≤ buf.length
  · rw [if_pos hc] at h
    cases h
    obtain ⟨h0, h1, h2, h3⟩ := hc
    rw [List.length_append, List.length_append, List.length_take, List.length_take,
      List.length_drop]
    omega
  · rw [if_neg hc] at h
    cases h

/-- Under the spec's contract a successful pipeline yields the channel replication of a
binary mask of `height` rows and `width` columns, and line 97 computes `outSize` as
`width*height*4` reduced to an `int`. -/
theorem edgePipeline_meetsSpec (cv : OpenCV) (hcv : cv.MeetsSpec) (nv21 : List Byte)
    (width height : Int) (hh : 0 < height) (hrows : height + height / 2 ≤ 2147483647)
    (edgesRGBA : Mat) (hok : edgePipeline cv nv21 width height = .ok edgesRGBA) :
    ∃ gray edges, cv.Canny gray 50 150 = .ok edges ∧
      (edges.data.length : Int) = width * height ∧
      (∀ b, b ∈ edges.data → b = 0 ∨ b = 255) ∧
      edgesRGBA.data = replicateChannels edges.data ∧
      edgesRGBA.outSize = wrap32 (width * height * 4) := by
  obtain ⟨rgba, gray, edges, conv, h1, h2, h3, h4, hE⟩ :=
    edgePipeline_ok cv nv21 width height edgesRGBA hok
  obtain ⟨r0, rrows, rcols⟩ := hcv.nv21_dims _ _ h1
  obtain ⟨grows, gcols⟩ := hcv.gray_dims _ _ h2
  obtain ⟨erows, ecols, elen, ebin⟩ := hcv.canny_mask _ _ _ _ h3
  obtain ⟨crows, ccols, csize, cdata⟩ := hcv.gray2rgba _ _ h4
  have hyuvrows : (yuv nv21 width height).rows = height + height / 2 := by
    show wrap32 (height + Int.tdiv height 2) = _
    rw [Int.tdiv_eq_ediv hh.le (by omega), wrap32_eq_self (by omega) (by omega)]
  have hyuvcols : (yuv nv21 width height).cols = width := rfl
  rw [hyuvrows, Int.tdiv_eq_ediv r0 (by omega)] at rrows
  have hr : rgba.rows = height := by omega
  have hrows : edges.rows = height := by rw [erows, grows, hr]
  have hcols : edges.cols = width := by rw [ecols, gcols, rcols, hyuvcols]
  have hEdata : edgesRGBA.data = conv.data := by
    rw [hE]; cases conv.isContinuous <;> rfl
  have hEout : edgesRGBA.outSize = conv.outSize := by
    rw [hE]; cases conv.isContinuous <;> rfl
  refine ⟨gray, edges, h3, ?_, ebin, ?_, ?_⟩
  · rw [elen, hrows, hcols]; ring
  · rw [hEdata, cdata]
  · rw [hEout]
    show wrap32 (conv.rows * conv.cols * (conv.elemSize : Int)) = _
    rw [crows, ccols, csize, hrows, hcols]
    have e : height * width * ((4 : Nat) : Int) = width * height * 4 := by push_cast; ring
    rw [e]

/-- The channel replication of a constant plane is a run of equal pixels. -/
theorem replicateChannels_replicate (N : Nat) (v : Byte) :
    replicateChannels (List.replicate N v) = (List.replicate N [v, v, v, 255]).flatten := by
  induction N with
  | zero => rfl
  | succ N ih =>
    rw [List.replicate_succ, List.replicate_succ, List.flatten_cons, replicateChannels, ih]
    rfl

/-- A list whose first `N` entries all equal `v` starts with `N` copies of `v`. -/
theorem take_eq_replicate (l : List Byte) (N : Nat) (v : Byte) (hlen : N ≤ l.length)
    (h : ∀ i, i < N → l[i]? = some v) : l.take N = List.replicate N v := by
  apply List.ext_getElem?
  intro n
  by_cases hn : n < N
  · rw [List.getElem?_take_of_lt hn, h n hn, List.getElem?_replicate, if_pos hn]
  · rw [List.getElem?_eq_none (by rw [List.length_take]; omega),
      List.getElem?_eq_none (by rw [List.length_replicate]; omega)]

/-- Every stored `int` lies in the 32-bit range. -/
theorem wrap32_bounds (z : Int) : -2147483648 ≤ wrap32 z ∧ wrap32 z ≤ 2147483647 := by
  unfold wrap32; omega

/-- Two loops over the same list whose bodies agree on its elements compute the same. -/
theorem foldlM_congr_mem {σ α : Type} (f g : σ → α → Option σ) (l : List α)
    (h : ∀ a, a ∈ l → ∀ s, f s a = g s a) (s0 : σ) :
    l.foldlM f s0 = l.foldlM g s0 := by
  induction l generalizing s0 with
  | nil => rfl
  | cons a l ih =>
    simp only [List.foldlM_cons]
    rw [h a (List.mem_cons_self a l) s0]
    cases g s0 a with
    | none => rfl
    | some s =>
      simp only [Option.bind_eq_bind, Option.some_bind]
      exact ih (fun b hb => h b (List.mem_cons_of_mem a hb)) s

/-- Every index the loops read is negative or below `width*height`. -/
theorem yIndex_lt_luma (W H y x : Nat) (hy : y < H) (hx : x < W) :
    yIndex (W : Int) (y : Int) (x : Int) < 0 ∨
      (0 ≤ yIndex (W : Int) (y : Int) (x : Int) ∧
        yIndex (W : Int) (y : Int) (x : Int) < (W : Int) * (H : Int)) := by
  have hk : y * W + x < W * H := by
    have h1 : (y + 1) * W ≤ H * W := Nat.mul_le_mul_right W hy
    have h2 : (y + 1) * W = y * W + W := by ring
    have h3 : H * W = W * H := Nat.mul_comm H W
    omega
  have hcast : ((W : Int) * (H : Int)) = ((W * H : Nat) : Int) := by push_cast; rfl
  rw [hcast]
  by_cases hN : W * H ≤ 2147483647
  · have e : yIndex (W : Int) (y : Int) (x : Int) = ((y * W + x : Nat) : Int) := by
      unfold yIndex
      have h1 : ((y : Int) * (W : Int)) = ((y * W : Nat) : Int) := by push_cast; rfl
      have h2 : wrap32 ((y * W : Nat) : Int) = ((y * W : Nat) : Int) :=
        wrap32_eq_self (by omega) (by omega)
      rw [h1, h2, wrap32_eq_self (by omega) (by omega)]
      push_cast; rfl
    rw [e]
    right
    omega
  · have hb := wrap32_bounds (wrap32 ((y : Int) * (W : Int)) + (x : Int))
    unfold yIndex
    omega

/-- Two frames that agree below `n` give the same load at every index that is negative
or below `n`. -/
theorem readByte_congr (f1 f2 : List Byte) (n : Int) (idx : Int)
    (hagree : ∀ i : Nat, (i : Int) < n → f1[i]? = f2[i]?)
    (hidx : idx < 0 ∨ (0 ≤ idx ∧ idx < n)) :
    readByte f1 idx = readByte f2 idx := by
  unfold readByte
  rcases hidx with h | ⟨h0, hn⟩
  · rw [if_neg (by omega), if_neg (by omega)]
  · rw [if_pos h0, if_pos h0]
    exact hagree idx.toNat (by omega)

/-- The loops compute the same on two frames that agree on the luma plane. -/
theorem frameLoop_congr (f1 f2 : List Byte) (W H : Nat)
    (hagree : ∀ i : Nat, (i : Int) < (W : Int) * (H : Int) → f1[i]? = f2[i]?)
    (buf : List Byte) :
    frameLoop f1 (W : Int) (H : Int) buf = frameLoop f2 (W : Int) (H : Int) buf := by
  unfold frameLoop
  rw [Int.toNat_ofNat]
  apply foldlM_congr_mem
  intro y hy b
  unfold rowLoop
  rw [Int.toNat_ofNat]
  apply foldlM_congr_mem
  intro x hx b'
  unfold pixelBody
  rw [readByte_congr f1 f2 _ _ hagree
    (yIndex_lt_luma W H y x (List.mem_range.mp hy) (List.mem_range.mp hx))]

/-- The fallback branch returns the same value and leaves the same trace on two frames
on which the loops compute the same. -/
theorem fallbackPath_congr (a1 a2 f1 f2 : List Byte) (width height : Int)
    (hloop : ∀ buf, frameLoop f1 width height buf = frameLoop f2 width height buf) :
    (fallbackPath a1 f1 width height).ret = (fallbackPath a2 f2 width height).ret ∧
      (fallbackPath a1 f1 width height).trace = (fallbackPath a2 f2 width height).trace := by
  rw [fallbackPath, fallbackPath]
  cases vectorCtor (outSize width height) with
  | none => exact ⟨rfl, rfl⟩
  | some buf =>
    simp only []
    rw [hloop buf]
    cases frameLoop f2 width height buf with
    | none => exact ⟨rfl, rfl⟩
    | some buf2 =>
      simp only []
      cases NewByteArray (outSize width height) with
      | none => exact ⟨rfl, rfl⟩
      | some arr =>
        simp only []
        cases SetByteArrayRegion arr 0 (outSize width height) buf2 with
        | none => exact ⟨rfl, rfl⟩
        | some out => exact ⟨rfl, rfl⟩

/-- The fallback build past the guard of line 59: acquisition, length, then the branch. -/
theorem nativeProcessFrame_none_past_guard (array : List Byte)
    (width height : Int) (hw : width ≠ 0) (hh : height ≠ 0) :
    nativeProcessFrame none (some array) width height =
      { ret := (fallbackPath array array width height).ret,
        trace := [Event.GetByteArrayElements, Event.GetArrayLength] ++
          (fallbackPath array array width height).trace,
        nv21Array := (fallbackPath array array width height).nv21Array } := by
  rw [nativeProcessFrame, if_neg (by omega)]

/-- A fallback branch that returns has released the elements once, with `JNI_ABORT`. -/
theorem fallbackPath_returns (array nv21 : List Byte) (width height : Int)
    (hret : (fallbackPath array nv21 width height).ret ≠ Ret.fault) :
    (fallbackPath array nv21 width height).trace =
        [Event.ALOGE Diagnostic.openCVNotAvailable, Event.vectorCtor (outSize width height),
         Event.NewByteArray (outSize width height),
         Event.SetByteArrayRegion 0 (outSize width height),
         Event.ReleaseByteArrayElements ReleaseMode.JNI_ABORT] ∧
      (fallbackPath array nv21 width height).nv21Array = some array := by
  revert hret
  rw [fallbackPath]
  cases vectorCtor (outSize width height) with
  | none => intro hret; exact absurd rfl hret
  | some buf =>
    simp only []
    cases frameLoop nv21 width height buf with
    | none => intro hret; exact absurd rfl hret
    | some buf2 =>
      simp only []
      cases NewByteArray (outSize width height) with
      | none => intro hret; exact absurd rfl hret
      | some arr =>
        simp only []
        cases SetByteArrayRegion arr 0 (outSize width height) buf2 with
        | none => intro hret; exact absurd rfl hret
        | some out => intro _; exact ⟨rfl, rfl⟩

/-- An OpenCV branch that returns has released the elements once, with `JNI_ABORT`, and
has not acquired anything itself. -/
theorem fullPath_returns (cv : OpenCV) (array nv21 : List Byte) (width height : Int)
    (hret : (fullPath cv array nv21 width height).ret ≠ Ret.fault) :
    releases (fullPath cv array nv21 width height).trace = 1 ∧
      acquisitions (fullPath cv array nv21 width height).trace = 0 ∧
      (fullPath cv array nv21 width height).nv21Array = some array := by
  revert hret
  rw [fullPath]
  cases edgePipeline cv nv21 width height with
  | error t =>
    cases t with
    | cvException => intro _; exact ⟨rfl, rfl, rfl⟩
    | other => intro _; exact ⟨rfl, rfl, rfl⟩
  | ok edgesRGBA =>
    simp only []
    cases NewByteArray edgesRGBA.outSize with
    | none => intro hret; exact absurd rfl hret
    | some arr =>
      simp only []
      cases SetByteArrayRegion arr 0 edgesRGBA.outSize edgesRGBA.data with
      | none => intro hret; exact absurd rfl hret
      | some out => intro _; exact ⟨rfl, rfl, rfl⟩

/-- The library `blankCV` meets the contract `OpenCV.MeetsSpec`. -/
theorem blankCV_meetsSpec : blankCV.MeetsSpec where
  nv21_dims := by
    intro m rgba h
    change (if 0 ≤ m.rows ∧ 0 ≤ m.cols ∧
        (2 * m.rows + 1) / 3 + Int.tdiv ((2 * m.rows + 1) / 3) 2 = m.rows then
      Except.ok _ else Except.error Thrown.cvException) = Except.ok rgba at h
    by_cases hc : 0 ≤ m.rows ∧ 0 ≤ m.cols ∧
        (2 * m.rows + 1) / 3 + Int.tdiv ((2 * m.rows + 1) / 3) 2 = m.rows
    · rw [if_pos hc] at h
      cases h
      exact ⟨by show 0 ≤ (2 * m.rows + 1) / 3; omega, hc.2.2, rfl⟩
    · rw [if_neg hc] at h
      cases h
  gray_dims := by
    intro m gray h
    change (if 0 ≤ m.rows ∧ 0 ≤ m.cols then Except.ok _
      else Except.error Thrown.cvException) = Except.ok gray at h
    by_cases hc : 0 ≤ m.rows ∧ 0 ≤ m.cols
    · rw [if_pos hc] at h
      cases h
      exact ⟨rfl, rfl⟩
    · rw [if_neg hc] at h
      cases h
  canny_mask := by
    intro m edges t1 t2 h
    change (if 0 ≤ m.rows ∧ 0 ≤ m.cols then Except.ok _
      else Except.error Thrown.cvException) = Except.ok edges at h
    by_cases hc : 0 ≤ m.rows ∧ 0 ≤ m.cols
    · rw [if_pos hc] at h
      cases h
      refine ⟨rfl, rfl, ?_, ?_⟩
      · show (((List.replicate (m.rows * m.cols).toNat (0 : Byte)).length : Nat) : Int) =
          m.rows * m.cols
        rw [List.length_replicate]
        exact Int.toNat_of_nonneg (Int.mul_nonneg hc.1 hc.2)
      · intro b hb
        exact Or.inl (List.eq_of_mem_replicate hb)
    · rw [if_neg hc] at h
      cases h
  gray2rgba := by
    intro m out h
    cases h
    exact ⟨rfl, rfl, rfl, rfl⟩

/-- The value returned by the OpenCV build past the guard is the value of the branch. -/
theorem nativeProcessFrame_some_ret (cv : OpenCV) (array : List Byte)
    (width height : Int) (hw : width ≠ 0) (hh : height ≠ 0) :
    (nativeProcessFrame (some cv) (some array) width height).ret =
      (fullPath cv array array width height).ret := by
  rw [nativeProcessFrame_some_past_guard cv array width height hw hh]

/-- A pipeline result that `NewByteArray` and `SetByteArrayRegion` accept is returned. -/
theorem fullPath_of_ok (cv : OpenCV) (array nv21 outArray out data : List Byte)
    (width height n : Int) (edgesRGBA : Mat)
    (hok : edgePipeline cv nv21 width height = .ok edgesRGBA)
    (hos : edgesRGBA.outSize = n) (hdata : edgesRGBA.data = data)
    (hnew : NewByteArray n = some outArray)
    (hset : SetByteArrayRegion outArray 0 n data = some out) :
    (fullPath cv array nv21 width height).ret = Ret.outArray out := by
  subst hos hdata
  rw [fullPath, hok]
  simp only [hnew, hset]

/-- The pipeline of `blankCV` on a 32770 x 32768 frame: a 32768-row, 32770-column,
four-channel image. -/
theorem blankCV_pipeline_large :
    edgePipeline blankCV (List.replicate 1610711040 0) 32770 32768 =
      .ok { rows := 32768, cols := 32770, elemSize := 4,
            data := replicateChannels (List.replicate 1073807360 0), isContinuous := true } := by
  rfl

/-- Under the contract `OpenCV.MeetsSpec`, for `width > 0`, `height > 0` with
`width*height*4 < 2^32`: an array returned by the OpenCV build is the channel replication
of the mask of `Canny(gray, 50, 150)`, has `width*height*4` bytes, and every pixel is
`m, m, m, 255` with `m` equal to 0 or 255. (From `2^31` on, `outSize` is negative and no
array is returned.) -/
theorem fullPath_replicates_mask (cv : OpenCV) (hcv : cv.MeetsSpec) (nv21 : List Byte)
    (width height : Int) (hw : 0 < width) (hh : 0 < height)
    (hsz : width * height * 4 < 4294967296) (out : List Byte)
    (hret : (nativeProcessFrame (some cv) (some nv21) width height).ret = Ret.outArray out) :
    (∃ gray edges, cv.Canny gray 50 150 = .ok edges ∧ out = replicateChannels edges.data) ∧
      (out.length : Int) = width * height * 4 ∧
      ∀ i : Nat, (i : Int) < width * height →
        ∃ m : Byte, (m = 0 ∨ m = 255) ∧ out[4 * i]? = some m ∧ out[4 * i + 1]? = some m ∧
          out[4 * i + 2]? = some m ∧ out[4 * i + 3]? = some 255 := by
  rw [nativeProcessFrame_some_past_guard cv nv21 width height (by omega) (by omega)] at hret
  obtain ⟨m, arr, hm, hnew, hset⟩ := fullPath_outArray cv nv21 nv21 out width height hret
  have hpos : 0 < width * height := Int.mul_pos hw hh
  have hh30 : height ≤ width * height := by nlinarith
  obtain ⟨gray, edges, hC, hlen, hbin, hdata, hos⟩ :=
    edgePipeline_meetsSpec cv hcv nv21 width height hh (by omega) m hm
  obtain ⟨h0, harr⟩ := NewByteArray_length _ _ hnew
  have hsz31 : width * height * 4 ≤ 2147483647 := by
    rw [hos] at h0
    unfold wrap32 at h0
    omega
  rw [wrap32_eq_self (by omega) hsz31] at hos
  have hosN : m.outSize = ((4 * edges.data.length : Nat) : Int) := by
    rw [hos]; push_cast; rw [hlen]; ring
  have hdlen : m.data.length = 4 * edges.data.length := by
    rw [hdata, length_replicateChannels]
  rw [harr, hosN, Int.toNat_ofNat, SetByteArrayRegion_whole _ _ hdlen] at hset
  have hout : out = replicateChannels edges.data := by
    cases hset
    exact hdata
  refine ⟨⟨gray, edges, hC, hout⟩, ?_, ?_⟩
  · rw [hout, length_replicateChannels]; push_cast; rw [hlen]; ring
  · intro i hi
    have hiN : i < edges.data.length := by
      have : (i : Int) < (edges.data.length : Int) := by rw [hlen]; exact hi
      exact_mod_cast this
    obtain ⟨a, b, c, d⟩ := getElem?_replicateChannels edges.data i
    rw [List.getElem?_eq_getElem hiN] at a b c d
    rw [hout]
    exact ⟨edges.data[i], hbin _ (List.getElem_mem hiN), a, b, c, d⟩

/-- On the fallback build two frames that agree on their first `width*height` bytes give the
same returned value and the same trace, a fault included. -/
theorem fallback_same_outcome (frame1 frame2 : List Byte) (width height : Int)
    (hw : 0 < width) (hh : 0 < height)
    (hluma : ∀ i : Nat, (i : Int) < width * height → frame1[i]? = frame2[i]?) :
    (nativeProcessFrame none (some frame1) width height).ret =
        (nativeProcessFrame none (some frame2) width height).ret ∧
      (nativeProcessFrame none (some frame1) width height).trace =
        (nativeProcessFrame none (some frame2) width height).trace := by
  have hloop : ∀ buf, frameLoop frame1 width height buf = frameLoop frame2 width height buf := by
    obtain ⟨W, rfl⟩ := Int.eq_ofNat_of_zero_le hw.le
    obtain ⟨H, rfl⟩ := Int.eq_ofNat_of_zero_le hh.le
    exact frameLoop_congr frame1 frame2 W H hluma
  have hc := fallbackPath_congr frame1 frame2 frame1 frame2 width height hloop
  rw [nativeProcessFrame_none_past_guard frame1 _ _ (by omega) (by omega),
    nativeProcessFrame_none_past_guard frame2 _ _ (by omega) (by omega)]
  show (fallbackPath frame1 frame1 width height).ret = (fallbackPath frame2 frame2 width height).ret ∧
    [Event.GetByteArrayElements, Event.GetArrayLength] ++
        (fallbackPath frame1 frame1 width height).trace =
      [Event.GetByteArrayElements, Event.GetArrayLength] ++
        (fallbackPath frame2 frame2 width height).trace
  rw [hc.1, hc.2]
  exact ⟨rfl, rfl⟩

/-- On both builds, a call that returns (lines 61, 102, 106, 110 or 139) has as many
`ReleaseByteArrayElements(..., JNI_ABORT)` as `GetByteArrayElements` calls in its trace,
none on the early return and one otherwise, and leaves the Java array as it was. -/
theorem returning_call_is_balanced (opencv : Option OpenCV)
    (nv21Array : Option (List Byte)) (width height : Int)
    (hret : (nativeProcessFrame opencv nv21Array width height).ret ≠ Ret.fault) :
    releases (nativeProcessFrame opencv nv21Array width height).trace =
        acquisitions (nativeProcessFrame opencv nv21Array width height).trace ∧
      ((nv21Array = none ∨ width = 0 ∨ height = 0) →
        acquisitions (nativeProcessFrame opencv nv21Array width height).trace = 0) ∧
      (¬ (nv21Array = none ∨ width = 0 ∨ height = 0) →
        acquisitions (nativeProcessFrame opencv nv21Array width height).trace = 1) ∧
      (nativeProcessFrame opencv nv21Array width height).nv21Array = nv21Array := by
  cases nv21Array with
  | none => exact ⟨rfl, fun _ => rfl, fun h => absurd (Or.inl rfl) h, rfl⟩
  | some array =>
    by_cases hz : width = 0 ∨ height = 0
    · rw [nativeProcessFrame, if_pos hz]
      exact ⟨rfl, fun _ => rfl, fun h => absurd (Or.inr hz) h, rfl⟩
    · have hw : width ≠ 0 := fun h => hz (Or.inl h)
      have hh : height ≠ 0 := fun h => hz (Or.inr h)
      have hearly : ¬ ((some array : Option (List Byte)) = none ∨ width = 0 ∨ height = 0) := by
        rintro (h | h)
        · cases h
        · exact hz h
      cases opencv with
      | none =>
        rw [nativeProcessFrame_none_past_guard array width height hw hh] at hret ⊢
        obtain ⟨htr, harr⟩ := fallbackPath_returns array array width height hret
        show releases ([Event.GetByteArrayElements, Event.GetArrayLength] ++
              (fallbackPath array array width height).trace) =
            acquisitions ([Event.GetByteArrayElements, Event.GetArrayLength] ++
              (fallbackPath array array width height).trace) ∧
          (_ → acquisitions ([Event.GetByteArrayElements, Event.GetArrayLength] ++
              (fallbackPath array array width height).trace) = 0) ∧
          (_ → acquisitions ([Event.GetByteArrayElements, Event.GetArrayLength] ++
              (fallbackPath array array width height).trace) = 1) ∧
          (fallbackPath array array width height).nv21Array = some array
        rw [htr]
        exact ⟨rfl, fun h => absurd h hearly, fun _ => rfl, harr⟩
      | some cv =>
        rw [nativeProcessFrame_some_past_guard cv array width height hw hh] at hret ⊢
        obtain ⟨hrel, hacq, harr⟩ := fullPath_returns cv array array width height hret
        have hr : releases ([Event.GetByteArrayElements, Event.GetArrayLength] ++
            (fullPath cv array array width height).trace) = 1 := hrel
        have ha : acquisitions ([Event.GetByteArrayElements, Event.GetArrayLength] ++
            (fullPath cv array array width height).trace) = 1 := by
          unfold acquisitions at hacq ⊢
          rw [List.count_append, hacq]
          rfl
        show releases ([Event.GetByteArrayElements, Event.GetArrayLength] ++
              (fullPath cv array array width height).trace) =
            acquisitions ([Event.GetByteArrayElements, Event.GetArrayLength] ++
              (fullPath cv array array width height).trace) ∧
          (_ → acquisitions ([Event.GetByteArrayElements, Event.GetArrayLength] ++
              (fullPath cv array array width height).trace) = 0) ∧
          (_ → acquisitions ([Event.GetByteArrayElements, Event.GetArrayLength] ++
              (fullPath cv array array width height).trace) = 1) ∧
          (fullPath cv array array width height).nv21Array = some array
        rw [hr, ha]
        exact ⟨rfl, fun h => absurd h hearly, fun _ => rfl, harr⟩

/-! ## The claims -/

/-- Claim C1, as amended. Fallback build (`HAS_OPENCV 0`): for `width > 0` and `height > 0`
with `width*height*4 ≤ 2^31 - 1` and every non-null frame of at least `width*height*3/2`
bytes, the call returns an array (neither `nullptr` nor a fault) whose length is exactly
`width*height*4`. -/
theorem fallback_output_length (nv21 : List Byte) (width height : Int)
    (hw : 0 < width) (hh : 0 < height) (hsz : width * height * 4 ≤ 2147483647)
    (hlen : width * height * 3 / 2 ≤ (nv21.length : Int)) :
    ∃ out, (nativeProcessFrame none (some nv21) width height).ret = Ret.outArray out ∧
      (out.length : Int) = width * height * 4 := by
  obtain ⟨W, H, rfl, rfl, hW, hH, h4, hl⟩ := dims_cast nv21 width height hw hh hsz
    (luma_le_of_frame_le width height _ hw hh hlen)
  rw [nativeProcessFrame_fallback_eq nv21 W H hW hH h4 hl]
  refine ⟨_, rfl, ?_⟩
  rw [length_replicateChannels, List.length_take, Nat.min_eq_left hl]
  push_cast
  ring

/-- Instance of C1 (amended) at the 4 x 4 frame of 24 bytes. -/
theorem fallback_output_length_witness :
    (0 : Int) < 4 ∧ (0 : Int) < 4 ∧ (4 : Int) * 4 * 4 ≤ 2147483647 ∧
      (4 : Int) * 4 * 3 / 2 ≤ ((List.replicate 24 (100 : Byte)).length : Int) ∧
      ∃ out, (nativeProcessFrame none (some (List.replicate 24 100)) 4 4).ret =
          Ret.outArray out ∧ (out.length : Int) = 4 * 4 * 4 :=
  ⟨by decide, by decide, by decide, by decide,
    fallback_output_length (List.replicate 24 100) 4 4 (by decide) (by decide) (by decide)
      (by decide)⟩

/-- Claim C1 as stated fails at `width = 32768`, `height = 16384` with a frame of
`32768*16384*3/2 = 805306368` bytes: `frameSize = 2^29`, `outSize = frameSize * 4` wraps
to `-2^31`, the `std::vector` constructor of line 119 throws, and the call returns no
array at all, so no array of length `32768*16384*4`. -/
theorem fallback_output_length_counterexample :
    (0 : Int) < 32768 ∧ (0 : Int) < 16384 ∧
      (32768 : Int) * 16384 * 3 / 2 ≤ ((List.replicate 805306368 (0 : Byte)).length : Int) ∧
      (nativeProcessFrame none (some (List.replicate 805306368 0)) 32768 16384).ret =
        Ret.fault ∧
      ¬ ∃ out, (nativeProcessFrame none (some (List.replicate 805306368 0)) 32768 16384).ret =
          Ret.outArray out ∧ (out.length : Int) = 32768 * 16384 * 4 := by
  have hfault : (nativeProcessFrame none (some (List.replicate 805306368 0)) 32768 16384).ret =
      Ret.fault := by decide
  refine ⟨by decide, by decide, ?_, hfault, ?_⟩
  · rw [List.length_replicate]; decide
  · rintro ⟨out, hout, -⟩
    rw [hfault] at hout
    cases hout

/-- Claim C2, as amended. Fallback build: for `width > 0`, `height > 0` with
`width*height*4 ≤ 2^31 - 1`, every frame of at least `width*height*3/2` bytes and every
pixel index `i < width*height`, the call returns an array `out` with
`out[4i] = out[4i+1] = out[4i+2] = frame[i]` and `out[4i+3] = 255`. -/
theorem fallback_pixel (nv21 : List Byte) (width height : Int)
    (hw : 0 < width) (hh : 0 < height) (hsz : width * height * 4 ≤ 2147483647)
    (hlen : width * height * 3 / 2 ≤ (nv21.length : Int))
    (i : Nat) (hi : (i : Int) < width * height) :
    ∃ out Y, (nativeProcessFrame none (some nv21) width height).ret = Ret.outArray out ∧
      nv21[i]? = some Y ∧ out[4 * i]? = some Y ∧ out[4 * i + 1]? = some Y ∧
      out[4 * i + 2]? = some Y ∧ out[4 * i + 3]? = some 255 := by
  obtain ⟨W, H, rfl, rfl, hW, hH, h4, hl⟩ := dims_cast nv21 width height hw hh hsz
    (luma_le_of_frame_le width height _ hw hh hlen)
  have hiN : i < W * H := by exact_mod_cast hi
  have hlt : i < nv21.length := by omega
  rw [nativeProcessFrame_fallback_eq nv21 W H hW hH h4 hl]
  obtain ⟨a, b, c, d⟩ := getElem?_replicateChannels (nv21.take (W * H)) i
  rw [List.getElem?_take_of_lt hiN, List.getElem?_eq_getElem hlt] at a b c d
  exact ⟨_, nv21[i], rfl, List.getElem?_eq_getElem hlt, a, b, c, d⟩

/-- Instance of C2 (amended) at a 2 x 2 frame, pixel 3. -/
theorem fallback_pixel_witness :
    (0 : Int) < 2 ∧ (0 : Int) < 2 ∧ (2 : Int) * 2 * 4 ≤ 2147483647 ∧
      (2 : Int) * 2 * 3 / 2 ≤ (([10, 20, 30, 40, 7, 9] : List Byte).length : Int) ∧
      ((3 : Nat) : Int) < 2 * 2 ∧
      ∃ out Y, (nativeProcessFrame none (some [10, 20, 30, 40, 7, 9]) 2 2).ret =
          Ret.outArray out ∧
        ([10, 20, 30, 40, 7, 9] : List Byte)[3]? = some Y ∧ out[4 * 3]? = some Y ∧
        out[4 * 3 + 1]? = some Y ∧ out[4 * 3 + 2]? = some Y ∧ out[4 * 3 + 3]? = some 255 :=
  ⟨by decide, by decide, by decide, by decide, by decide,
    fallback_pixel [10, 20, 30, 40, 7, 9] 2 2 (by decide) (by decide) (by decide) (by decide)
      3 (by decide)⟩

/-- Claim C2 as stated fails at `width = 16384`, `height = 32768` with a frame of 805306368
bytes and pixel index 0: `outSize` wraps to `-2^31`, the call faults at line 119 and
there is no output whose pixel 0 could equal the luma byte. -/
theorem fallback_pixel_counterexample :
    (0 : Int) < 16384 ∧ (0 : Int) < 32768 ∧
      (16384 : Int) * 32768 * 3 / 2 ≤ ((List.replicate 805306368 (7 : Byte)).length : Int) ∧
      ((0 : Nat) : Int) < 16384 * 32768 ∧
      ¬ ∃ out Y, (nativeProcessFrame none (some (List.replicate 805306368 7)) 16384 32768).ret =
          Ret.outArray out ∧
        (List.replicate 805306368 (7 : Byte))[0]? = some Y ∧ out[4 * 0]? = some Y ∧
        out[4 * 0 + 1]? = some Y ∧ out[4 * 0 + 2]? = some Y ∧ out[4 * 0 + 3]? = some 255 := by
  have hfault : (nativeProcessFrame none (some (List.replicate 805306368 7)) 16384 32768).ret =
      Ret.fault := by decide
  refine ⟨by decide, by decide, ?_, by decide, ?_⟩
  · rw [List.length_replicate]; decide
  · rintro ⟨out, Y, hout, -⟩
    rw [hfault] at hout
    cases hout

/-- Claim C3. On both builds and for every value of the other arguments, a call with a null
frame reference, `width == 0` or `height == 0` returns `nullptr`, and its whole trace is
the one `ALOGE("nativeProcessFrame: invalid args")`: no `GetByteArrayElements`, no
vector, no `NewByteArray`, no library call; the Java array is untouched. -/
theorem invalid_args_return_nullptr (opencv : Option OpenCV)
    (nv21Array : Option (List Byte)) (width height : Int)
    (hbad : nv21Array = none ∨ width = 0 ∨ height = 0) :
    nativeProcessFrame opencv nv21Array width height =
      { ret := Ret.nullptr, trace := [Event.ALOGE Diagnostic.invalidArgs],
        nv21Array := nv21Array } := by
  cases nv21Array with
  | none => rfl
  | some array =>
    have hz : width = 0 ∨ height = 0 := by
      rcases hbad with h | h
      · cases h
      · exact h
    rw [nativeProcessFrame, if_pos hz]

/-- Instance of C3 on the OpenCV build with `width = 0`. -/
theorem invalid_args_return_nullptr_witness :
    ((some [1, 2, 3, 4, 5, 6] : Option (List Byte)) = none ∨ (0 : Int) = 0 ∨ (2 : Int) = 0) ∧
      nativeProcessFrame (some blankCV) (some [1, 2, 3, 4, 5, 6]) 0 2 =
        { ret := Ret.nullptr, trace := [Event.ALOGE Diagnostic.invalidArgs],
          nv21Array := some [1, 2, 3, 4, 5, 6] } :=
  ⟨Or.inr (Or.inl rfl),
    invalid_args_return_nullptr (some blankCV) (some [1, 2, 3, 4, 5, 6]) 0 2
      (Or.inr (Or.inl rfl))⟩

/-- Claim C4 fails on the code. Fallback build, empty non-null frame, `width = 1`,
`height = 1` (the frame is shorter than `1*1*3/2 = 1` byte): the guard of line 59 passes,
the elements are acquired, the vector of 4 bytes is built, and line 126 reads `nv21_u[0]`
outside the empty frame; the call does not return `nullptr`, and the acquired elements
are not released. -/
theorem short_frame_faults :
    (([] : List Byte).length : Int) < 1 * 1 * 3 / 2 ∧
      nativeProcessFrame none (some []) 1 1 =
        { ret := Ret.fault,
          trace := [Event.GetByteArrayElements, Event.GetArrayLength,
                    Event.ALOGE Diagnostic.openCVNotAvailable, Event.vectorCtor 4],
          nv21Array := some [] } ∧
      readByte [] (yIndex 1 0 0) = none := by
  decide

/-- Claim C5 fails on the code. Fallback build, any non-null frame. With `width = -1`,
`height = 1` the guard of line 59 passes, the elements are acquired, `outSize = -4`
reaches the `std::vector` constructor, which throws; nothing catches it and nothing
is released. With `width = -2`, `height = -2` the guard passes, `outSize = 16`, both
loops run zero times and the call returns an array of 16 zero bytes instead of
`nullptr`. -/
theorem negative_dimensions_pass_guard (nv21 : List Byte) :
    nativeProcessFrame none (some nv21) (-1) 1 =
        { ret := Ret.fault,
          trace := [Event.GetByteArrayElements, Event.GetArrayLength,
                    Event.ALOGE Diagnostic.openCVNotAvailable, Event.vectorCtor (-4)],
          nv21Array := some nv21 } ∧
      nativeProcessFrame none (some nv21) (-2) (-2) =
        { ret := Ret.outArray (List.replicate 16 0),
          trace := [Event.GetByteArrayElements, Event.GetArrayLength,
                    Event.ALOGE Diagnostic.openCVNotAvailable, Event.vectorCtor 16,
                    Event.NewByteArray 16, Event.SetByteArrayRegion 0 16,
                    Event.ReleaseByteArrayElements ReleaseMode.JNI_ABORT],
          nv21Array := some nv21 } := by
  constructor <;> rfl

/-- Claim C6, as amended. Fallback build: for `width > 0`, `height > 0` with
`width*height*4 ≤ 2^31 - 1` and every frame of at least `width*height*3/2` bytes whose
first `width*height` bytes all equal `v` (the chroma bytes are arbitrary), the call
returns `width*height` consecutive pixels `[v, v, v, 255]`. -/
theorem fallback_uniform (nv21 : List Byte) (width height : Int) (v : Byte)
    (hw : 0 < width) (hh : 0 < height) (hsz : width * height * 4 ≤ 2147483647)
    (hlen : width * height * 3 / 2 ≤ (nv21.length : Int))
    (hluma : ∀ i : Nat, (i : Int) < width * height → nv21[i]? = some v) :
    (nativeProcessFrame none (some nv21) width height).ret =
      Ret.outArray (List.replicate (width * height).toNat [v, v, v, 255]).flatten := by
  obtain ⟨W, H, rfl, rfl, hW, hH, h4, hl⟩ := dims_cast nv21 width height hw hh hsz
    (luma_le_of_frame_le width height _ hw hh hlen)
  have hN : ((W : Int) * (H : Int)).toNat = W * H := by
    have : ((W : Int) * (H : Int)) = ((W * H : Nat) : Int) := by push_cast; rfl
    rw [this, Int.toNat_ofNat]
  rw [nativeProcessFrame_fallback_eq nv21 W H hW hH h4 hl, hN,
    take_eq_replicate nv21 (W * H) v hl (fun i hi => hluma i (by exact_mod_cast hi)),
    replicateChannels_replicate]

/-- Instance of C6 (amended): the 4 x 4 scenario of the spec, 16 luma bytes equal to 100
followed by 8 chroma bytes; the output is sixteen pixels `[100, 100, 100, 255]`. -/
theorem fallback_uniform_witness :
    (0 : Int) < 4 ∧ (0 : Int) < 4 ∧ (4 : Int) * 4 * 4 ≤ 2147483647 ∧
      (4 : Int) * 4 * 3 / 2 ≤
        ((List.replicate 16 (100 : Byte) ++ [1, 2, 3, 4, 5, 6, 7, 8]).length : Int) ∧
      (nativeProcessFrame none
          (some (List.replicate 16 (100 : Byte) ++ [1, 2, 3, 4, 5, 6, 7, 8])) 4 4).ret =
        Ret.outArray (List.replicate ((4 : Int) * 4).toNat [100, 100, 100, 255]).flatten :=
  ⟨by decide, by decide, by decide, by decide,
    fallback_uniform (List.replicate 16 (100 : Byte) ++ [1, 2, 3, 4, 5, 6, 7, 8]) 4 4 100
      (by decide) (by decide) (by decide) (by decide) (by
        intro i hi
        have hi16 : i < 16 := by omega
        interval_cases i <;> rfl)⟩

/-- Claim C6 as stated fails at `width = 32768`, `height = 16384` with the uniform frame of
805306368 bytes equal to 100: the call faults at line 119 and does not return the
`32768*16384` pixels `[100, 100, 100, 255]`. -/
theorem fallback_uniform_counterexample :
    (0 : Int) < 32768 ∧ (0 : Int) < 16384 ∧
      (32768 : Int) * 16384 * 3 / 2 ≤ ((List.replicate 805306368 (100 : Byte)).length : Int) ∧
      (∀ i : Nat, (i : Int) < 32768 * 16384 →
        (List.replicate 805306368 (100 : Byte))[i]? = some 100) ∧
      (nativeProcessFrame none (some (List.replicate 805306368 100)) 32768 16384).ret ≠
        Ret.outArray
          (List.replicate ((32768 : Int) * 16384).toNat [100, 100, 100, 255]).flatten := by
  have hfault : (nativeProcessFrame none (some (List.replicate 805306368 100)) 32768 16384).ret =
      Ret.fault := by decide
  refine ⟨by decide, by decide, ?_, ?_, ?_⟩
  · rw [List.length_replicate]; decide
  · intro i hi
    rw [List.getElem?_replicate, if_pos (by omega)]
  · rw [hfault]
    intro h
    cases h

/-- Claim C7 fails on the code. OpenCV build, `width = 32770`, `height = 32768`, any frame
and any library that meets `OpenCV.MeetsSpec`: `edgesRGBA.total() * edgesRGBA.elemSize()`
is `32770*32768*4 = 2^32 + 262144`, the `static_cast<int>` of line 97 keeps 262144
(its comment says `width*height*4`), so an array the call returns has 262144 bytes,
fewer than `width*height*4`, and no byte at index `4*65536` although pixel 65536 is below
`width*height`. -/
theorem fullPath_outSize_truncated (cv : OpenCV) (hcv : cv.MeetsSpec) (nv21 out : List Byte)
    (hret : (nativeProcessFrame (some cv) (some nv21) 32770 32768).ret = Ret.outArray out) :
    out.length = 262144 ∧ (out.length : Int) < 32770 * 32768 * 4 ∧
      ((65536 : Nat) : Int) < 32770 * 32768 ∧ out[4 * 65536]? = none := by
  rw [nativeProcessFrame_some_ret cv nv21 32770 32768 (by decide) (by decide)] at hret
  obtain ⟨m, arr, hm, hnew, hset⟩ := fullPath_outArray cv nv21 nv21 out 32770 32768 hret
  obtain ⟨gray, edges, hC, hlen, hbin, hdata, hos⟩ :=
    edgePipeline_meetsSpec cv hcv nv21 32770 32768 (by decide) (by decide) m hm
  have hos2 : m.outSize = 262144 := by rw [hos]; decide
  obtain ⟨-, harr⟩ := NewByteArray_length _ _ hnew
  have hl : out.length = 262144 := by
    rw [SetByteArrayRegion_length _ _ _ _ _ hset, harr, List.length_replicate, hos2]
    rfl
  refine ⟨hl, ?_, by decide, List.getElem?_eq_none (by rw [hl])⟩
  rw [hl]
  decide

/-- Instance of the C7 failure: the library `blankCV`, which meets `OpenCV.MeetsSpec`, on a
frame of `32770*32768*3/2 = 1610711040` bytes. The pipeline succeeds and the call returns
an array of 262144 bytes. -/
theorem fullPath_outSize_truncated_witness :
    blankCV.MeetsSpec ∧ (0 : Int) < 32770 ∧ (0 : Int) < 32768 ∧
      (32770 : Int) * 32768 * 3 / 2 ≤ ((List.replicate 1610711040 (0 : Byte)).length : Int) ∧
      ∃ out, (nativeProcessFrame (some blankCV) (some (List.replicate 1610711040 0))
          32770 32768).ret = Ret.outArray out ∧
        (out.length = 262144 ∧ (out.length : Int) < 32770 * 32768 * 4 ∧
          ((65536 : Nat) : Int) < 32770 * 32768 ∧ out[4 * 65536]? = none) := by
  have hcond : (0 : Int) ≤ 0 ∧ (0 : Int) ≤ 262144 ∧
      (0 : Int) + 262144 ≤ ((List.replicate 262144 (0 : Byte)).length : Int) ∧
      (262144 : Int) ≤
        ((replicateChannels (List.replicate 1073807360 (0 : Byte))).length : Int) := by
    rw [List.length_replicate, length_replicateChannels, List.length_replicate]
    decide
  have hset : SetByteArrayRegion (List.replicate 262144 0) 0 262144
      (replicateChannels (List.replicate 1073807360 0)) =
      some ((List.replicate 262144 (0 : Byte)).take (0 : Int).toNat ++
        (replicateChannels (List.replicate 1073807360 0)).take (262144 : Int).toNat ++
        (List.replicate 262144 (0 : Byte)).drop ((0 : Int) + 262144).toNat) := by
    unfold SetByteArrayRegion
    rw [if_pos hcond]
  generalize (List.replicate 262144 (0 : Byte)).take (0 : Int).toNat ++
    (replicateChannels (List.replicate 1073807360 0)).take (262144 : Int).toNat ++
    (List.replicate 262144 (0 : Byte)).drop ((0 : Int) + 262144).toNat = out0 at hset
  have hnew : NewByteArray 262144 = some (List.replicate 262144 0) := by
    unfold NewByteArray
    rw [if_pos (by decide)]
    rfl
  have hos : Mat.outSize
      { rows := 32768, cols := 32770, elemSize := 4,
        data := replicateChannels (List.replicate 1073807360 0), isContinuous := true } =
      262144 := by decide
  have hdata : Mat.data
      { rows := 32768, cols := 32770, elemSize := 4,
        data := replicateChannels (List.replicate 1073807360 0), isContinuous := true } =
      replicateChannels (List.replicate 1073807360 0) := rfl
  have hret : (nativeProcessFrame (some blankCV) (some (List.replicate 1610711040 0))
      32770 32768).ret = Ret.outArray out0 := by
    rw [nativeProcessFrame_some_ret blankCV _ 32770 32768 (by decide) (by decide)]
    exact fullPath_of_ok blankCV (List.replicate 1610711040 0) (List.replicate 1610711040 0)
      (List.replicate 262144 0) out0
      (replicateChannels (List.replicate 1073807360 0)) 32770 32768 262144 _
      blankCV_pipeline_large hos hdata hnew hset
  refine ⟨blankCV_meetsSpec, by decide, by decide, ?_, out0, hret,
    fullPath_outSize_truncated blankCV blankCV_meetsSpec _ out0 hret⟩
  rw [List.length_replicate]
  decide

/-- Claim C8, as amended. Fallback build: for `width > 0`, `height > 0` with
`width*height*4 ≤ 2^31 - 1` and any two frames, each of at least `width*height*3/2` bytes,
that agree on their first `width*height` bytes, both calls return an array and the two
arrays are byte for byte the same, whatever the other (chroma) bytes and the lengths of
the frames are; the traces are the same too. In particular two calls with the same
input return the same output. -/
theorem fallback_ignores_chroma (frame1 frame2 : List Byte) (width height : Int)
    (hw : 0 < width) (hh : 0 < height) (hsz : width * height * 4 ≤ 2147483647)
    (hlen1 : width * height * 3 / 2 ≤ (frame1.length : Int))
    (hlen2 : width * height * 3 / 2 ≤ (frame2.length : Int))
    (hluma : ∀ i : Nat, (i : Int) < width * height → frame1[i]? = frame2[i]?) :
    ∃ out, (nativeProcessFrame none (some frame1) width height).ret = Ret.outArray out ∧
      (nativeProcessFrame none (some frame2) width height).ret = Ret.outArray out ∧
      (nativeProcessFrame none (some frame1) width height).trace =
        (nativeProcessFrame none (some frame2) width height).trace := by
  have h2 := luma_le_of_frame_le width height frame2.length hw hh hlen2
  obtain ⟨W, H, rfl, rfl, hW, hH, h4, hl1⟩ := dims_cast frame1 width height hw hh hsz
    (luma_le_of_frame_le width height _ hw hh hlen1)
  have hl2 : W * H ≤ frame2.length := by exact_mod_cast h2
  have htake : frame1.take (W * H) = frame2.take (W * H) := by
    apply List.ext_getElem?
    intro n
    by_cases hn : n < W * H
    · rw [List.getElem?_take_of_lt hn, List.getElem?_take_of_lt hn]
      exact hluma n (by exact_mod_cast hn)
    · rw [List.getElem?_eq_none (by rw [List.length_take]; omega),
        List.getElem?_eq_none (by rw [List.length_take]; omega)]
  rw [nativeProcessFrame_fallback_eq frame1 W H hW hH h4 hl1,
    nativeProcessFrame_fallback_eq frame2 W H hW hH h4 hl2, htake]
  exact ⟨_, rfl, rfl, rfl⟩

/-- Instance of C8 (amended): two 2 x 2 frames with the same luma, different chroma and
different lengths both return the sixteen bytes of the replicated luma. -/
theorem fallback_ignores_chroma_witness :
    (0 : Int) < 2 ∧ (0 : Int) < 2 ∧ (2 : Int) * 2 * 4 ≤ 2147483647 ∧
      (2 : Int) * 2 * 3 / 2 ≤ (([10, 20, 30, 40, 1, 2] : List Byte).length : Int) ∧
      (2 : Int) * 2 * 3 / 2 ≤ (([10, 20, 30, 40, 250, 251, 252] : List Byte).length : Int) ∧
      (nativeProcessFrame none (some [10, 20, 30, 40, 1, 2]) 2 2).ret =
        Ret.outArray [10, 10, 10, 255, 20, 20, 20, 255, 30, 30, 30, 255, 40, 40, 40, 255] ∧
      ∃ out, (nativeProcessFrame none (some [10, 20, 30, 40, 1, 2]) 2 2).ret =
          Ret.outArray out ∧
        (nativeProcessFrame none (some [10, 20, 30, 40, 250, 251, 252]) 2 2).ret =
          Ret.outArray out ∧
        (nativeProcessFrame none (some [10, 20, 30, 40, 1, 2]) 2 2).trace =
          (nativeProcessFrame none (some [10, 20, 30, 40, 250, 251, 252]) 2 2).trace :=
  ⟨by decide, by decide, by decide, by decide, by decide, by decide,
    fallback_ignores_chroma [10, 20, 30, 40, 1, 2] [10, 20, 30, 40, 250, 251, 252] 2 2
      (by decide) (by decide) (by decide) (by decide) (by decide) (by
        intro i hi
        have hi4 : i < 4 := by omega
        interval_cases i <;> rfl)⟩

/-- Claim C8 as stated fails at `width = 32768`, `height = 16384` with two frames of
805306368 bytes that have the same `2^29` luma bytes and different chroma bytes:
`outSize` wraps to `-2^31`, both calls fault at line 119 and neither returns an output. -/
theorem fallback_ignores_chroma_counterexample :
    (0 : Int) < 32768 ∧ (0 : Int) < 16384 ∧
      (32768 : Int) * 16384 * 3 / 2 ≤ ((List.replicate 805306368 (0 : Byte)).length : Int) ∧
      (32768 : Int) * 16384 * 3 / 2 ≤
        ((List.replicate 536870912 (0 : Byte) ++ List.replicate 268435456 255).length : Int) ∧
      (∀ i : Nat, (i : Int) < 32768 * 16384 →
        (List.replicate 805306368 (0 : Byte))[i]? =
          (List.replicate 536870912 (0 : Byte) ++ List.replicate 268435456 255)[i]?) ∧
      (nativeProcessFrame none (some (List.replicate 805306368 0)) 32768 16384).ret =
        Ret.fault ∧
      (nativeProcessFrame none
          (some (List.replicate 536870912 0 ++ List.replicate 268435456 255))
          32768 16384).ret = Ret.fault ∧
      ¬ ∃ out, (nativeProcessFrame none (some (List.replicate 805306368 0)) 32768 16384).ret =
          Ret.outArray out ∧
        (nativeProcessFrame none
            (some (List.replicate 536870912 0 ++ List.replicate 268435456 255))
            32768 16384).ret = Ret.outArray out := by
  have hfault : (nativeProcessFrame none (some (List.replicate 805306368 0)) 32768 16384).ret =
      Ret.fault := by decide
  have hfault2 : (nativeProcessFrame none
      (some (List.replicate 536870912 0 ++ List.replicate 268435456 255))
      32768 16384).ret = Ret.fault := by decide
  refine ⟨by decide, by decide, ?_, ?_, ?_, hfault, hfault2, ?_⟩
  · rw [List.length_replicate]; decide
  · rw [List.length_append, List.length_replicate, List.length_replicate]; decide
  · intro i hi
    have hi29 : i < 536870912 := by omega
    rw [List.getElem?_replicate, if_pos (by omega),
      List.getElem?_append_left (by rw [List.length_replicate]; exact hi29),
      List.getElem?_replicate, if_pos hi29]
  · rintro ⟨out, hout, -⟩
    rw [hfault] at hout
    cases hout

/-- Claim C9 fails on the code. Fallback build, `width = 32768`, `height = 16384`, a frame
of `32768*16384*3/2 = 805306368` bytes: the elements are acquired at line 64, `outSize`
wraps to `-2^31`, the `std::vector` constructor of line 119 throws, the `#else` branch
has no handler and its only release is at line 138, so the call leaves with one
`GetByteArrayElements` and no `ReleaseByteArrayElements` in its trace. (The OpenCV branch
catches and releases, lines 103-111.) -/
theorem fallback_throw_skips_release :
    (0 : Int) < 32768 ∧ (0 : Int) < 16384 ∧
      (32768 : Int) * 16384 * 3 / 2 ≤ ((List.replicate 805306368 (0 : Byte)).length : Int) ∧
      (nativeProcessFrame none (some (List.replicate 805306368 0)) 32768 16384).ret =
        Ret.fault ∧
      (nativeProcessFrame none (some (List.replicate 805306368 0)) 32768 16384).trace =
        [Event.GetByteArrayElements, Event.GetArrayLength,
         Event.ALOGE Diagnostic.openCVNotAvailable, Event.vectorCtor (-2147483648)] ∧
      acquisitions
        (nativeProcessFrame none (some (List.replicate 805306368 0)) 32768 16384).trace = 1 ∧
      releases
        (nativeProcessFrame none (some (List.replicate 805306368 0)) 32768 16384).trace = 0 := by
  refine ⟨by decide, by decide, ?_, by decide, by decide, by decide, by decide⟩
  rw [List.length_replicate]
  decide

/-- Claim C10. Fallback build: for `width > 0`, `height > 0` with
`width*height*4 ≤ 2^31 - 1` and every frame of at least `width*height` bytes,
`frameSize` and `outSize` are the mathematical products, and for every row `y < height`
and column `x < width` reached by the loops: `y*width`, `yIndex = y*width + x` and
`outIdx = yIndex*4` do not overflow, `0 ≤ yIndex < frame length` and the read succeeds,
and each `outIdx + k`, `k = 0..3`, does not overflow and is inside `[0, outSize)`; the
call returns an array, so no out-of-bounds access is reached. -/
theorem fallback_index_safe (nv21 : List Byte) (width height : Int)
    (hw : 0 < width) (hh : 0 < height) (hsz : width * height * 4 ≤ 2147483647)
    (hlen : width * height ≤ (nv21.length : Int)) :
    frameSize width height = width * height ∧
      outSize width height = width * height * 4 ∧
      (∀ y x : Nat, (y : Int) < height → (x : Int) < width →
        wrap32 ((y : Int) * width) = (y : Int) * width ∧
        yIndex width (y : Int) (x : Int) = (y : Int) * width + (x : Int) ∧
        0 ≤ yIndex width (y : Int) (x : Int) ∧
        yIndex width (y : Int) (x : Int) < (nv21.length : Int) ∧
        (readByte nv21 (yIndex width (y : Int) (x : Int))).isSome = true ∧
        outIdx (yIndex width (y : Int) (x : Int)) = ((y : Int) * width + (x : Int)) * 4 ∧
        ∀ k : Int, 0 ≤ k → k ≤ 3 →
          wrap32 (outIdx (yIndex width (y : Int) (x : Int)) + k) =
              ((y : Int) * width + (x : Int)) * 4 + k ∧
            0 ≤ ((y : Int) * width + (x : Int)) * 4 + k ∧
            ((y : Int) * width + (x : Int)) * 4 + k < outSize width height) ∧
      ∃ out, (nativeProcessFrame none (some nv21) width height).ret = Ret.outArray out := by
  obtain ⟨W, H, rfl, rfl, hW, hH, h4, hl⟩ := dims_cast nv21 width height hw hh hsz hlen
  have hos := outSize_eq W H h4
  have hfs : frameSize (W : Int) (H : Int) = (W : Int) * (H : Int) := by
    unfold frameSize
    have h1 : ((W : Int) * (H : Int)) = ((W * H : Nat) : Int) := by push_cast; rfl
    rw [h1]
    exact wrap32_eq_self (by omega) (by omega)
  refine ⟨hfs, ?_, ?_, ?_⟩
  · rw [hos]; push_cast; ring
  · intro y x hy hx
    have hy' : y < H := by exact_mod_cast hy
    have hx' : x < W := by exact_mod_cast hx
    have hk : y * W + x < W * H := by
      have h1 : (y + 1) * W ≤ H * W := Nat.mul_le_mul_right W hy'
      have h2 : (y + 1) * W = y * W + W := by ring
      have h3 : H * W = W * H := Nat.mul_comm H W
      omega
    have hyi := yIndex_eq W y x (W * H) hk h4
    have hoi := outIdx_eq (y * W + x) (W * H) hk h4
    have hcast : ((y * W + x : Nat) : Int) = (y : Int) * (W : Int) + (x : Int) := by
      push_cast; rfl
    have hyw : ((y : Int) * (W : Int)) = ((y * W : Nat) : Int) := by push_cast; rfl
    have hrd : (readByte nv21 ((y * W + x : Nat) : Int)).isSome = true := by
      rw [readByte_eq, List.getElem?_eq_getElem (by omega)]
      rfl
    rw [hyi, hoi, hos]
    refine ⟨?_, hcast, by omega, by omega, hrd, by omega, ?_⟩
    · rw [hyw]; exact wrap32_eq_self (by omega) (by omega)
    · intro k hk0 hk3
      refine ⟨?_, by omega, by omega⟩
      rw [wrap32_eq_self (by omega) (by omega)]
      omega
  · rw [nativeProcessFrame_fallback_eq nv21 W H hW hH h4 hl]
    exact ⟨_, rfl⟩

/-- Instance of C10 at a 2 x 2 frame, row 1, column 1. -/
theorem fallback_index_safe_witness :
    (0 : Int) < 2 ∧ (0 : Int) < 2 ∧ (2 : Int) * 2 * 4 ≤ 2147483647 ∧
      (2 : Int) * 2 ≤ (([10, 20, 30, 40] : List Byte).length : Int) ∧
      (yIndex 2 ((1 : Nat) : Int) ((1 : Nat) : Int) = ((1 : Nat) : Int) * 2 + ((1 : Nat) : Int) ∧
        ∃ out, (nativeProcessFrame none (some [10, 20, 30, 40]) 2 2).ret = Ret.outArray out) :=
  ⟨by decide, by decide, by decide, by decide,
    ((fallback_index_safe [10, 20, 30, 40] 2 2 (by decide) (by decide) (by decide)
      (by decide)).2.2.1 1 1 (by decide) (by decide)).2.1,
    (fallback_index_safe [10, 20, 30, 40] 2 2 (by decide) (by decide) (by decide)
      (by decide)).2.2.2⟩

end NativeLib
